import Mathlib

/-!
Verification development for the Agents repository.

The two subsystems under study are embedded shallowly:

* `PromptLoader` models `src/utils/prompt_loader.py`: reference-path
  resolution against the repository sandbox root (`resolve_path`), file
  loading with inline failure markers (`load_file_content`), and the
  recursive reference expansion with a visited set (`process_imports`).
  Absolute filesystem paths are modelled as lists of path components
  (the result of splitting on the separator); a document body is
  modelled as the token list produced by the reference pattern scan:
  maximal literal runs interleaved with reference tokens.  File content
  is stored post-frontmatter-stripping, which the studied claims do not
  touch.  `os.path.exists` on a candidate path is modelled as membership
  of the normalised path in the filesystem.

* `Engine` models `src/engine/router.py` (semantic cache lookup,
  classifier fallback, confidence-gated write-back, agent scan) and the
  threshold filtering of `src/engine/skills.py` / `src/engine/implants.py`.
  The vector store is modelled per its contract: a list of entries plus
  an embedding-distance oracle; query returns the nearest entry, get
  either returns the found entries or fails.  Distances and confidences
  are rationals.
-/

/-- `str.startswith`, computed on the character lists. -/
def strStartsWith (s pre : String) : Bool := pre.toList.isPrefixOf s.toList

/-- `str.endswith`, computed on the character lists. -/
def strEndsWith (s suf : String) : Bool := suf.toList.isSuffixOf s.toList

/-- Dropping the first `n` characters of a string (`ref[1:]`). -/
def strDrop (s : String) (n : Nat) : String := String.mk (s.toList.drop n)

def splitPathAux : List Char → List Char → List String
  | [], acc => [String.mk acc.reverse]
  | c :: cs, acc =>
    if c = '/' then String.mk acc.reverse :: splitPathAux cs []
    else splitPathAux cs (c :: acc)

/-- Splitting a string on the path separator, component-wise (the
component view of the strings `os.path.join` builds and `os.path.abspath`
normalises). -/
def splitPath (s : String) : List String := splitPathAux s.toList []

namespace PromptLoader

/-- A path component list, standing for an absolute path. -/
abbrev Path := List String

/-- One token of a scanned document: either literal text (never re-scanned:
substitution results are not re-scanned by the substitution pass) or a
reference token `@...mdc` matched by the import pattern. -/
inductive Token where
  | lit (s : String)
  | ref (t : String)
deriving DecidableEq, Repr

/-- A document body as the token list produced by the import-pattern scan. -/
abbrev Doc := List Token

/-- The filesystem: an association list from absolute paths to
(frontmatter-stripped, scanned) file contents. -/
abbrev FS := List (Path × Doc)

/-- Association-list lookup of a path in the filesystem. -/
def lookupFS : FS → Path → Option Doc
  | [], _ => none
  | (q, d) :: rest, p => if p = q then some d else lookupFS rest p

/-- `os.path.exists`, modelled as: the path is present in the filesystem. -/
def fsExists (fs : FS) (p : Path) : Bool := (lookupFS fs p).isSome

/-- The set of paths present in the filesystem. -/
def fsDom (fs : FS) : Finset Path := (fs.map Prod.fst).toFinset

def lookupFS_isSome_iff (fs : FS) (p : Path) :
    (lookupFS fs p).isSome ↔ p ∈ fsDom fs := by
  induction fs with
  | nil => simp [lookupFS, fsDom]
  | cons hd tl ih =>
    obtain ⟨q, d⟩ := hd
    simp only [fsDom, List.map_cons, List.toFinset_cons, Finset.mem_insert] at ih ⊢
    by_cases h : p = q
    · simp [lookupFS, h]
    · simp [lookupFS, h, ih]

def lookupFS_some_mem {fs : FS} {p : Path} {d : Doc}
    (h : lookupFS fs p = some d) : p ∈ fsDom fs := by
  have := (lookupFS_isSome_iff fs p).mp (by simp [h])
  exact this

/-- `os.path.join a b` for an absolute left argument: if `b` is absolute it
discards `a`, otherwise it appends the components of `b`. -/
def osJoin (a : Path) (b : String) : Path :=
  if strStartsWith b "/" then splitPath b else a ++ splitPath b

/-- One step of `os.path.abspath` normalisation: drop empty and `.`
components, let `..` pop the last component (a no-op at the root). -/
def normStep (acc : List String) (c : String) : List String :=
  if c = "" ∨ c = "." then acc
  else if c = ".." then acc.dropLast
  else acc ++ [c]

/-- `os.path.abspath` on an already-rooted component list: left-to-right
normalisation of `.`, `..` and empty components. -/
def normalize (cs : List String) : List String := cs.foldl normStep []

/-- `os.path.commonpath` of two absolute paths: the longest common
component prefix. -/
def commonpath : List String → List String → List String
  | a :: as, b :: bs => if a = b then a :: commonpath as bs else []
  | _, _ => []

/-- The security error message raised by `resolve_path` (every violation,
whichever branch detects it, surfaces with this message: the inner raise is
itself caught by the surrounding `except ValueError` and re-raised). -/
def secErrMsg (ref : String) : String :=
  "Security Error: Path " ++ ref ++ " is invalid."

/-- The candidate path `resolve_path` constructs before the security check,
following the tiered `@`-reference resolution rules of the source. -/
def resolveCandidate (root : Path) (ex : Path → Bool) (ref : String) : Path :=
  if strStartsWith ref "@" then
    let clean := strDrop ref 1
    if strStartsWith clean ".cursor" then osJoin root clean
    else if strStartsWith clean "agents" then osJoin (osJoin root ".cursor") clean
    else
      let c1 := osJoin (osJoin root ".cursor") clean
      let c2 := osJoin root clean
      if ex (normalize c1) then c1 else c2
  else osJoin root ref

/-- `resolve_path`: construct the candidate, take its absolute form, and
reject it with a security error unless the sandbox root is the common path
of the two, i.e. unless the result is a descendant of (or equal to) the
root. -/
def resolve_path (root : Path) (ex : Path → Bool) (ref : String) :
    Except String Path :=
  let absPath := normalize (resolveCandidate root ex ref)
  if commonpath root absPath = root then Except.ok absPath
  else Except.error (secErrMsg ref)

/-- Render a component list back to a path string (for inline markers). -/
def pathToString (p : Path) : String := "/" ++ String.intercalate "/" p

/-- `load_file_content`: the stored document if the path exists, otherwise
an inline missing-file marker (a pure literal: the marker contains no `@`
sigil, so the import pattern finds nothing in it). -/
def load_file_content (fs : FS) (p : Path) : Doc :=
  match lookupFS fs p with
  | some d => d
  | none => [Token.lit ("[MISSING FILE: " ++ pathToString p ++ "]")]

/-- Number of reference tokens in a document. -/
def refCount : Doc → Nat
  | [] => 0
  | Token.lit _ :: rest => refCount rest
  | Token.ref _ :: rest => refCount rest + 1

def load_file_content_refCount_of_not_mem {fs : FS} {p : Path}
    (h : p ∉ fsDom fs) : refCount (load_file_content fs p) = 0 := by
  have hl : lookupFS fs p = none := by
    cases hc : lookupFS fs p with
    | none => rfl
    | some d => exact absurd (lookupFS_some_mem hc) h
  simp [load_file_content, hl, refCount]

def sdiff_insert_of_not_mem {α : Type} [DecidableEq α]
    {s t : Finset α} {p : α} (h : p ∉ s) : s \ insert p t = s \ t := by
  ext x
  simp only [Finset.mem_sdiff, Finset.mem_insert]
  constructor
  · rintro ⟨hx, hni⟩; exact ⟨hx, fun hm => hni (Or.inr hm)⟩
  · rintro ⟨hx, hni⟩
    refine ⟨hx, ?_⟩
    rintro (rfl | hm)
    · exact h hx
    · exact hni hm

def sdiff_insert_card_lt {α : Type} [DecidableEq α]
    {s t : Finset α} {p : α} (hs : p ∈ s) (ht : p ∉ t) :
    (s \ insert p t).card < (s \ t).card := by
  apply Finset.card_lt_card
  constructor
  · intro x hx
    simp only [Finset.mem_sdiff, Finset.mem_insert] at hx ⊢
    exact ⟨hx.1, fun hm => hx.2 (Or.inr hm)⟩
  · intro hsub
    have hp : p ∈ s \ t := Finset.mem_sdiff.mpr ⟨hs, ht⟩
    have h2 := hsub hp
    rw [Finset.mem_sdiff] at h2
    exact h2.2 (Finset.mem_insert_self p t)

/-- `process_imports`: expand every reference token of the document.  A
reference whose resolution fails the sandbox check becomes an inline
security-block marker; one resolving to an already-visited path becomes
an inline circular-reference marker; otherwise the resolved path is added
to the level's visited set (shared with the remaining sibling tokens) and
the referenced file's content is expanded recursively against a copy of
the updated set (deeper additions do not flow back).  Returns the
flattened text together with the list of paths whose content was loaded. -/
def process_imports (root : Path) (fs : FS) :
    Doc → Finset Path → String × List Path
  | [], _ => ("", [])
  | Token.lit s :: rest, seen =>
    let r := process_imports root fs rest seen
    (s ++ r.1, r.2)
  | Token.ref t :: rest, seen =>
    match resolve_path root (fsExists fs) t with
    | Except.error e =>
      let r := process_imports root fs rest seen
      ("[SECURITY BLOCK: " ++ e ++ "]" ++ r.1, r.2)
    | Except.ok p =>
      if p ∈ seen then
        let r := process_imports root fs rest seen
        ("[CIRCULAR REFERENCE: " ++ t ++ "]" ++ r.1, r.2)
      else
        let sub := process_imports root fs (load_file_content fs p) (insert p seen)
        let r := process_imports root fs rest (insert p seen)
        (sub.1 ++ r.1, p :: (sub.2 ++ r.2))
  termination_by doc seen => ((fsDom fs \ seen).card, refCount doc, doc.length)
  decreasing_by
  all_goals first
  | exact Prod.Lex.right _ (Prod.Lex.right _ (by simp))
  | exact Prod.Lex.right _ (Prod.Lex.left _ _ (by simp [refCount]))
  | (rename_i hnot
     by_cases hmem : p ∈ fsDom fs
     · exact Prod.Lex.left _ _ (sdiff_insert_card_lt hmem hnot)
     · rw [sdiff_insert_of_not_mem hmem]
       refine Prod.Lex.right _ (Prod.Lex.left _ _ ?_)
       have h0 := load_file_content_refCount_of_not_mem hmem
       simp [refCount, h0])

end PromptLoader

namespace Engine

/-- The router's cosine-similarity threshold (`SIMILARITY_THRESHOLD = 0.95`);
a cache hit requires cosine distance below `1 - SIMILARITY_THRESHOLD`. -/
def SIMILARITY_THRESHOLD : ℚ := 95 / 100

/-- One entry of the `router_cache` collection: id, indexed document
(the query text) and the stored metadata fields. -/
structure CacheEntry where
  id : String
  document : String
  target_agent : String
  reasoning : String
  timestamp : String
deriving DecidableEq, Repr

/-- `RouterDecision` (src/schemas/protocol.py). -/
structure RouterDecision where
  target_agent : String
  confidence : ℚ
  reasoning : String
  is_cached : Bool
deriving DecidableEq, Repr

/-- The embedding-distance oracle of the vector store: cosine distance
between a query text and a stored document. -/
abbrev Dist := String → String → ℚ

/-- The vector store's nearest-neighbour query with `n_results = 1`:
the entry minimising the distance to the query text (first wins on ties),
`none` on an empty collection. -/
def query1 (dist : Dist) (cache : List CacheEntry) (text : String) :
    Option (ℚ × CacheEntry) :=
  cache.foldl
    (fun acc e =>
      let d := dist text e.document
      match acc with
      | none => some (d, e)
      | some (d0, _) => if d < d0 then some (d, e) else acc)
    none

/-- The context-aware search string of `lookup_cache`: the last 200
characters of the history joined with the query, or the query alone when
the history is empty. -/
def semanticQuery (history query : String) : String :=
  if history ≠ "" then history.takeRight 200 ++ "\n" ++ query else query

/-- Fixed-point rendering of the measured distance with four decimals,
standing for the `:.4f` format of the cached-result reasoning string. -/
def fmtDist (d : ℚ) : String :=
  let m : Int := ⌊d * 10000 + 1 / 2⌋
  let n := m.natAbs
  let frac := Nat.repr (n % 10000)
  (if m < 0 then "-" else "") ++ Nat.repr (n / 10000) ++ "." ++
    String.mk (List.replicate (4 - frac.length) '0') ++ frac

/-- `SemanticRouter.lookup_cache`: query the router cache for the single
nearest neighbour of the context-aware search string; a hit requires its
distance to be strictly below `1 - SIMILARITY_THRESHOLD`, and the returned
decision is rebuilt from the neighbour's metadata with full confidence. -/
def lookup_cache (dist : Dist) (cache : List CacheEntry)
    (query history : String) : Option RouterDecision :=
  match query1 dist cache (semanticQuery history query) with
  | some (d, e) =>
    if d < 1 - SIMILARITY_THRESHOLD then
      some { target_agent := e.target_agent
             confidence := 1
             reasoning := "Cached result (distance: " ++ fmtDist d ++ ")"
             is_cached := true }
    else none
  | none => none

/-- `SemanticRouter.update_cache`: add an entry keyed by the request id,
with the query text as document and agent/reasoning as metadata. -/
def update_cache (cache : List CacheEntry)
    (query agent_name reasoning request_id : String) : List CacheEntry :=
  cache ++ [{ id := request_id
              document := query
              target_agent := agent_name
              reasoning := reasoning
              timestamp := "1.0" }]

/-- Outcome of the external classifier interaction, as observed by
`_get_llm_decision`: client-initialisation failure, transport or
response-parse failure (one `except Exception` catches both), or a
successfully parsed structured decision. -/
inductive LLMOutcome where
  | initFailure (msg : String)
  | callFailure (msg : String)
  | success (target : String) (confidence : ℚ) (reasoning : String)
deriving DecidableEq, Repr

/-- `SemanticRouter._get_llm_decision`: wraps every failure of the
classifier path into a degraded `universal_agent` decision with zero
confidence; a parsed response is returned as-is (no membership check of
`target_agent` against the known agents). -/
def get_llm_decision : LLMOutcome → RouterDecision
  | LLMOutcome.initFailure _ =>
    { target_agent := "universal_agent", confidence := 0
      reasoning := "OpenAI API Key missing or invalid", is_cached := false }
  | LLMOutcome.callFailure e =>
    { target_agent := "universal_agent", confidence := 0
      reasoning := "Error in routing: " ++ e, is_cached := false }
  | LLMOutcome.success t c r =>
    { target_agent := t, confidence := c, reasoning := r, is_cached := false }

/-- The outcome of one `route` call: the decision, the router-cache
collection after the call, and whether the classifier was invoked. -/
structure RouteResult where
  decision : RouterDecision
  cache : List CacheEntry
  llmInvoked : Bool
deriving DecidableEq, Repr

/-- `SemanticRouter.route`: cache lookup, classifier fallback on a miss,
and a cache write gated on `confidence > 0.8`. -/
def route (dist : Dist) (cache : List CacheEntry) (llm : LLMOutcome)
    (query history request_id : String) : RouteResult :=
  match lookup_cache dist cache query history with
  | some c => { decision := c, cache := cache, llmInvoked := false }
  | none =>
    let d := get_llm_decision llm
    if d.confidence > 8 / 10 then
      { decision := d
        cache := update_cache cache query d.target_agent d.reasoning request_id
        llmInvoked := true }
    else
      { decision := d, cache := cache, llmInvoked := true }

/-- One entry of a directory scan of `.cursor/agents`. -/
structure DirEntry where
  name : String
  is_dir : Bool
  hasSystemPrompt : Bool
deriving DecidableEq, Repr

/-- `SemanticRouter._scan_agents`: an absent agents directory yields the
empty list; otherwise subdirectories that are not hidden, are not
`common`, and contain a `system_prompt.mdc` qualify, with the fallback
`["universal_agent"]` when none qualifies, and a sorted result
otherwise. -/
def scan_agents (dirExists : Bool) (entries : List DirEntry) : List String :=
  if !dirExists then []
  else
    let agents := (entries.filter
      (fun e => e.is_dir && !strStartsWith e.name "." && e.name != "common"
        && e.hasSystemPrompt)).map (fun e => e.name)
    if agents = [] then ["universal_agent"]
    else agents.mergeSort (fun a b => a ≤ b)

/-- The cosine-distance relevance threshold of `SkillRetriever`. -/
def SKILLS_THRESHOLD : ℚ := 45 / 100

/-- The cosine-distance relevance threshold of `ImplantRetriever`. -/
def IMPLANTS_THRESHOLD : ℚ := 73 / 100

/-- Indexed metadata stored with a skill or implant document. -/
structure DocMeta where
  filename : String
  description : String
  path : String
  body : String
deriving DecidableEq, Repr

/-- One ranked result of the vector store's nearest-neighbour query:
id, cosine distance, stored metadata (possibly absent) and the indexed
document text. -/
structure QEntry where
  id : String
  distance : ℚ
  meta : Option DocMeta
  document : String
deriving DecidableEq, Repr

/-- One element of a retriever's returned sequence. -/
structure Retrieved where
  filename : String
  content : String
  meta : Option DocMeta
  distance : ℚ
deriving DecidableEq, Repr

/-- The injected content of a result: the clean `body` from the metadata
when present, else the indexed document text (`meta.get('body', doc)` with
`meta = ... or {}`). -/
def contentOf (meta : Option DocMeta) (document : String) : String :=
  match meta with
  | some m => m.body
  | none => document

/-- The distance-threshold filter both retrievers apply to the ranked
query results, preserving rank order. -/
def threshFilter (threshold : ℚ) (qres : List QEntry) : List Retrieved :=
  qres.filterMap (fun e =>
    if e.distance < threshold then
      some { filename := e.id
             content := contentOf e.meta e.document
             meta := e.meta
             distance := e.distance }
    else none)

/-- Outcome of the vector store's get-by-id operation: either the found
entries (ids absent from the store are simply not returned) or a raised
error. -/
inductive GetOutcome where
  | found (entries : List (String × Option DocMeta × String))
  | err (msg : String)
deriving DecidableEq, Repr

/-- Normalisation of a preferred id to the canonical `.mdc` filename. -/
def normalizeId (ps : String) : String :=
  if strEndsWith ps ".mdc" then ps else ps ++ ".mdc"

/-- `SkillRetriever.retrieve`: empty-collection short-circuit; with
preferred ids, normalise them, fetch by exact id and return the found
entries in store-returned order with distance `0`, falling through to
similarity search only when the get operation raises; without preferred
ids, filter the ranked query results by the relevance threshold. -/
def skills_retrieve (count : Nat) (preferred : List String)
    (get : List String → GetOutcome) (qres : List QEntry) : List Retrieved :=
  if count = 0 then []
  else
    match preferred with
    | [] => threshFilter SKILLS_THRESHOLD qres
    | _ :: _ =>
      let target_ids := preferred.map normalizeId
      match get target_ids with
      | GetOutcome.found entries =>
        entries.map (fun e =>
          { filename := e.1
            content := contentOf e.2.1 e.2.2
            meta := e.2.1
            distance := 0 })
      | GetOutcome.err _ => threshFilter SKILLS_THRESHOLD qres

/-- `ImplantRetriever.retrieve`: empty-collection short-circuit, then the
relevance-threshold filter over the ranked query results (the implant
retriever has no preferred-id path). -/
def implants_retrieve (count : Nat) (qres : List QEntry) : List Retrieved :=
  if count = 0 then []
  else threshFilter IMPLANTS_THRESHOLD qres

/-- The shape of one retrieved result built from a ranked query entry. -/
def toRetrieved (e : QEntry) : Retrieved :=
  { filename := e.id
    content := contentOf e.meta e.document
    meta := e.meta
    distance := e.distance }

end Engine

open PromptLoader Engine

theorem commonpath_eq_left_iff (a b : List String) :
    commonpath a b = a ↔ ∃ t, b = a ++ t := by
  induction a generalizing b with
  | nil => simp [commonpath]
  | cons x xs ih =>
    cases b with
    | nil =>
      simp only [commonpath]
      constructor
      · intro h; simp at h
      · rintro ⟨t, ht⟩; simp at ht
    | cons y ys =>
      by_cases hxy : x = y
      · subst hxy
        constructor
        · intro h
          simp only [commonpath, List.cons.injEq, true_and, if_true, eq_self_iff_true] at h
          obtain ⟨t, ht⟩ := (ih ys).mp h
          exact ⟨t, by simp [ht]⟩
        · rintro ⟨t, ht⟩
          simp only [List.cons_append, List.cons.injEq, true_and] at ht
          subst ht
          simp [commonpath, (ih (xs ++ t)).mpr ⟨t, rfl⟩]
      · constructor
        · intro h
          simp only [commonpath, if_neg hxy] at h
          simp at h
        · rintro ⟨t, ht⟩
          simp only [List.cons_append, List.cons.injEq] at ht
          exact absurd ht.1.symm hxy

theorem resolve_path_ok_in_root {root : Path} {ex : Path → Bool} {ref : String}
    {p : Path} (h : resolve_path root ex ref = Except.ok p) :
    ∃ t, p = root ++ t := by
  unfold resolve_path at h
  by_cases hcp : commonpath root (normalize (resolveCandidate root ex ref)) = root
  · simp only [hcp, if_pos] at h
    obtain ⟨t, ht⟩ := (commonpath_eq_left_iff root _).mp hcp
    injection h with h2
    exact ⟨t, h2 ▸ ht⟩
  · simp [hcp] at h

theorem resolve_path_error_is_security {root : Path} {ex : Path → Bool}
    {ref : String} {e : String} (h : resolve_path root ex ref = Except.error e) :
    e = secErrMsg ref := by
  unfold resolve_path at h
  by_cases hcp : commonpath root (normalize (resolveCandidate root ex ref)) = root
  · simp [hcp] at h
  · simp only [hcp, if_neg, if_false] at h
    injection h with h2
    exact h2.symm

theorem process_imports_nil (root : Path) (fs : FS) (seen : Finset Path) :
    process_imports root fs [] seen = ("", []) := by
  rw [process_imports]

theorem process_imports_lit (root : Path) (fs : FS) (s : String)
    (rest : Doc) (seen : Finset Path) :
    process_imports root fs (Token.lit s :: rest) seen =
      (s ++ (process_imports root fs rest seen).1,
       (process_imports root fs rest seen).2) := by
  rw [process_imports]

theorem process_imports_sec {root : Path} {fs : FS} {t : String} {e : String}
    (rest : Doc) (seen : Finset Path)
    (h : resolve_path root (fsExists fs) t = Except.error e) :
    process_imports root fs (Token.ref t :: rest) seen =
      ("[SECURITY BLOCK: " ++ e ++ "]" ++ (process_imports root fs rest seen).1,
       (process_imports root fs rest seen).2) := by
  rw [process_imports, h]

theorem process_imports_circ {root : Path} {fs : FS} {t : String} {p : Path}
    (rest : Doc) {seen : Finset Path}
    (h : resolve_path root (fsExists fs) t = Except.ok p) (hp : p ∈ seen) :
    process_imports root fs (Token.ref t :: rest) seen =
      ("[CIRCULAR REFERENCE: " ++ t ++ "]" ++ (process_imports root fs rest seen).1,
       (process_imports root fs rest seen).2) := by
  rw [process_imports, h]
  simp [hp]

theorem process_imports_expand {root : Path} {fs : FS} {t : String} {p : Path}
    (rest : Doc) {seen : Finset Path}
    (h : resolve_path root (fsExists fs) t = Except.ok p) (hp : p ∉ seen) :
    process_imports root fs (Token.ref t :: rest) seen =
      ((process_imports root fs (load_file_content fs p) (insert p seen)).1 ++
        (process_imports root fs rest (insert p seen)).1,
       p :: ((process_imports root fs (load_file_content fs p) (insert p seen)).2 ++
        (process_imports root fs rest (insert p seen)).2)) := by
  rw [process_imports, h]
  simp [hp]

theorem process_imports_reads_in_root (root : Path) (fs : FS) (doc : Doc)
    (seen : Finset Path) :
    ∀ q ∈ (process_imports root fs doc seen).2, ∃ t, q = root ++ t := by
  induction doc, seen using process_imports.induct root fs with
  | case1 seen =>
    rw [process_imports_nil]
    intro q hq
    simp at hq
  | case2 s rest seen ih =>
    rw [process_imports_lit]
    exact ih
  | case3 t rest seen e h ih =>
    rw [process_imports_sec rest seen h]
    exact ih
  | case4 t rest seen p h hp ih =>
    rw [process_imports_circ rest h hp]
    exact ih
  | case5 t rest seen p h hp ihSub ihRest =>
    rw [process_imports_expand rest h hp]
    intro q hq
    simp only [List.mem_cons, List.mem_append] at hq
    rcases hq with rfl | hq | hq
    · exact resolve_path_ok_in_root h
    · exact ihSub q hq
    · exact ihRest q hq

/-- C1: a reference whose path resolves outside the sandbox root is
rejected by `resolve_path` with the dedicated security error (the only
error it can raise), and during recursive expansion `process_imports`
substitutes an inline security-block marker for it; `resolve_path` never
returns a path outside the root, and every path whose content
`process_imports` loads is a descendant of (or equal to) the root, so no
file content from outside the sandbox appears in the resolved output. -/
theorem sandbox_security_enforced (root : Path) (fs : FS) (ref : String) :
    (∀ ex p, resolve_path root ex ref = Except.ok p → ∃ t, p = root ++ t)
    ∧ (∀ ex e, resolve_path root ex ref = Except.error e → e = secErrMsg ref)
    ∧ (∀ rest seen e, resolve_path root (fsExists fs) ref = Except.error e →
        process_imports root fs (Token.ref ref :: rest) seen =
          ("[SECURITY BLOCK: " ++ e ++ "]" ++
             (process_imports root fs rest seen).1,
           (process_imports root fs rest seen).2))
    ∧ (∀ doc seen q, q ∈ (process_imports root fs doc seen).2 →
        ∃ t, q = root ++ t) :=
  ⟨fun _ _ h => resolve_path_ok_in_root h,
   fun _ _ h => resolve_path_error_is_security h,
   fun rest seen _ h => process_imports_sec rest seen h,
   fun doc seen q hq => process_imports_reads_in_root root fs doc seen q hq⟩

theorem sandbox_security_enforced_witness :
    process_imports ["repo"] [] [Token.ref "@../../etc/passwd.mdc"] ∅ =
      ("[SECURITY BLOCK: " ++ secErrMsg "@../../etc/passwd.mdc" ++ "]", []) := by
  have h := (sandbox_security_enforced ["repo"] [] "@../../etc/passwd.mdc").2.2.1
    [] ∅ (secErrMsg "@../../etc/passwd.mdc") (by rfl)
  rw [h, process_imports_nil]
  simp

/-- C2: expansion of any document terminates (the expansion function is
total, by well-founded recursion on the unvisited part of the filesystem),
and a reference resolving to a path already in the visited set passed down
the recursion is substituted by an inline circular-reference marker
instead of being expanded further. -/
theorem cycle_guard_terminates (root : Path) (fs : FS) :
    (∀ doc seen, ∃ out reads, process_imports root fs doc seen = (out, reads))
    ∧ (∀ t rest seen p, resolve_path root (fsExists fs) t = Except.ok p →
        p ∈ seen →
        process_imports root fs (Token.ref t :: rest) seen =
          ("[CIRCULAR REFERENCE: " ++ t ++ "]" ++
             (process_imports root fs rest seen).1,
           (process_imports root fs rest seen).2)) :=
  ⟨fun _ _ => ⟨_, _, rfl⟩,
   fun _ rest _ _ h hp => process_imports_circ rest h hp⟩

theorem cycle_guard_terminates_witness :
    process_imports ["repo"]
      [(["repo", ".cursor", "agents", "x.mdc"], [Token.ref "@agents/x.mdc"])]
      [Token.ref "@agents/x.mdc"] ∅ =
      ("[CIRCULAR REFERENCE: @agents/x.mdc]",
       [["repo", ".cursor", "agents", "x.mdc"]]) := by
  have hres : resolve_path ["repo"]
      (fsExists [(["repo", ".cursor", "agents", "x.mdc"],
        [Token.ref "@agents/x.mdc"])]) "@agents/x.mdc" =
      Except.ok ["repo", ".cursor", "agents", "x.mdc"] := by rfl
  rw [process_imports_expand [] hres (by simp)]
  have hload : load_file_content
      [(["repo", ".cursor", "agents", "x.mdc"], [Token.ref "@agents/x.mdc"])]
      ["repo", ".cursor", "agents", "x.mdc"] = [Token.ref "@agents/x.mdc"] := by rfl
  rw [hload]
  rw [(cycle_guard_terminates ["repo"] _).2 "@agents/x.mdc" [] _ _ hres (by simp)]
  rw [process_imports_nil]
  rfl

/-- C10: two sibling occurrences of a reference token resolving to the same
path: the first occurrence is expanded into the referenced file's content,
and because each successful substitution adds its resolved path to the
visited set shared with the remaining sibling tokens (before the per-branch
copy is taken), the second occurrence yields an inline circular-reference
marker even though there is no actual cycle. -/
theorem duplicate_sibling_reference (root : Path) (fs : FS) (t : String)
    (p : Path) (rest : Doc) (seen : Finset Path)
    (h : resolve_path root (fsExists fs) t = Except.ok p) (hp : p ∉ seen) :
    process_imports root fs (Token.ref t :: Token.ref t :: rest) seen =
      ((process_imports root fs (load_file_content fs p) (insert p seen)).1 ++
        ("[CIRCULAR REFERENCE: " ++ t ++ "]" ++
         (process_imports root fs rest (insert p seen)).1),
       p :: ((process_imports root fs (load_file_content fs p) (insert p seen)).2 ++
        (process_imports root fs rest (insert p seen)).2)) := by
  rw [process_imports_expand (Token.ref t :: rest) h hp]
  rw [process_imports_circ rest h (Finset.mem_insert_self p seen)]

theorem duplicate_sibling_reference_witness :
    process_imports ["repo"]
      [(["repo", ".cursor", "agents", "x.mdc"], [Token.lit "BODY"])]
      [Token.ref "@agents/x.mdc", Token.ref "@agents/x.mdc"] ∅ =
      ("BODY" ++ ("[CIRCULAR REFERENCE: @agents/x.mdc]" ++ ""),
       [["repo", ".cursor", "agents", "x.mdc"]]) := by
  have hres : resolve_path ["repo"]
      (fsExists [(["repo", ".cursor", "agents", "x.mdc"], [Token.lit "BODY"])])
      "@agents/x.mdc" =
      Except.ok ["repo", ".cursor", "agents", "x.mdc"] := by rfl
  rw [duplicate_sibling_reference ["repo"] _ "@agents/x.mdc" _ [] ∅ hres (by simp)]
  have hload : load_file_content
      [(["repo", ".cursor", "agents", "x.mdc"], [Token.lit "BODY"])]
      ["repo", ".cursor", "agents", "x.mdc"] = [Token.lit "BODY"] := by rfl
  rw [hload, process_imports_nil, process_imports_lit, process_imports_nil]
  simp

/-- C3: when the nearest cached neighbour of the context-aware search
string has cosine distance strictly below `1 - SIMILARITY_THRESHOLD`,
`route` returns the decision rebuilt from that neighbour's metadata with
`is_cached = true`, `confidence = 1`, reasoning annotated with the
measured distance, and does not invoke the classifier (the outcome is the
same for every classifier oracle, the cache is left unchanged). -/
theorem route_cache_hit (dist : Dist) (cache : List CacheEntry)
    (llm : LLMOutcome) (query history request_id : String) (d : ℚ)
    (e : CacheEntry)
    (hq : query1 dist cache (semanticQuery history query) = some (d, e))
    (hd : d < 1 - SIMILARITY_THRESHOLD) :
    route dist cache llm query history request_id =
      { decision := { target_agent := e.target_agent
                      confidence := 1
                      reasoning := "Cached result (distance: " ++ fmtDist d ++ ")"
                      is_cached := true }
        cache := cache
        llmInvoked := false } := by
  simp [route, lookup_cache, hq, hd]

theorem route_cache_hit_witness :
    route (fun _ _ => 0)
      [{ id := "id1", document := "hello", target_agent := "security_expert",
         reasoning := "classified", timestamp := "1.0" }]
      (LLMOutcome.callFailure "network down") "hello" "" "req1" =
      { decision := { target_agent := "security_expert"
                      confidence := 1
                      reasoning := "Cached result (distance: " ++ fmtDist 0 ++ ")"
                      is_cached := true }
        cache := [{ id := "id1", document := "hello",
                    target_agent := "security_expert",
                    reasoning := "classified", timestamp := "1.0" }]
        llmInvoked := false } :=
  route_cache_hit (fun _ _ => 0) _ _ "hello" "" "req1" 0 _ (by rfl)
    (by norm_num [SIMILARITY_THRESHOLD])

/-- C4: on a cache miss, `route` appends a cache entry keyed by the request
id, with the query as document and the decision's agent and reasoning as
metadata, exactly when the fallback decision's confidence exceeds `0.8`;
with confidence at most `0.8` the cache is unchanged, so every later
lookup behaves exactly as before the call. -/
theorem route_writeback_gate (dist : Dist) (cache : List CacheEntry)
    (llm : LLMOutcome) (query history request_id : String)
    (hmiss : lookup_cache dist cache query history = none) :
    ((route dist cache llm query history request_id).cache =
      if (get_llm_decision llm).confidence > 8 / 10 then
        cache ++ [{ id := request_id
                    document := query
                    target_agent := (get_llm_decision llm).target_agent
                    reasoning := (get_llm_decision llm).reasoning
                    timestamp := "1.0" }]
      else cache)
    ∧ ((get_llm_decision llm).confidence ≤ 8 / 10 →
        (route dist cache llm query history request_id).cache = cache ∧
        ∀ q2 h2, lookup_cache dist
            (route dist cache llm query history request_id).cache q2 h2 =
          lookup_cache dist cache q2 h2) := by
  constructor
  · by_cases hc : (get_llm_decision llm).confidence > 8 / 10 <;>
      simp [route, update_cache, hmiss, hc]
  · intro hle
    have hc : ¬ (get_llm_decision llm).confidence > 8 / 10 := not_lt.mpr hle
    refine ⟨by simp [route, hmiss, hc], fun q2 h2 => by simp [route, hmiss, hc]⟩

theorem route_writeback_gate_witness :
    ((route (fun _ _ => 1) [] (LLMOutcome.success "security_expert" (95 / 100)
        "intent match") "q" "" "req2").cache =
      if (get_llm_decision (LLMOutcome.success "security_expert" (95 / 100)
          "intent match")).confidence > 8 / 10 then
        [] ++ [{ id := "req2"
                 document := "q"
                 target_agent := (get_llm_decision (LLMOutcome.success
                   "security_expert" (95 / 100) "intent match")).target_agent
                 reasoning := (get_llm_decision (LLMOutcome.success
                   "security_expert" (95 / 100) "intent match")).reasoning
                 timestamp := "1.0" }]
      else [])
    ∧ ((get_llm_decision (LLMOutcome.success "security_expert" (95 / 100)
          "intent match")).confidence ≤ 8 / 10 →
        (route (fun _ _ => 1) [] (LLMOutcome.success "security_expert"
          (95 / 100) "intent match") "q" "" "req2").cache = [] ∧
        ∀ q2 h2, lookup_cache (fun _ _ => 1)
            (route (fun _ _ => 1) [] (LLMOutcome.success "security_expert"
              (95 / 100) "intent match") "q" "" "req2").cache q2 h2 =
          lookup_cache (fun _ _ => 1) [] q2 h2) :=
  route_writeback_gate (fun _ _ => 1) [] _ "q" "" "req2" (by rfl)

/-- C5 (corrected): the router validates nothing about the classifier's
reported agent: every cache entry `route` writes stores the classifier's
`target_agent` verbatim, so membership of stored agents in the
known-agents set holds only when the classifier itself returns a member.
Every entry of the post-call cache is either a pre-existing entry or
carries the classifier decision's agent name. -/
theorem route_cache_stores_classifier_target (dist : Dist)
    (cache : List CacheEntry) (llm : LLMOutcome)
    (query history request_id : String) :
    ∀ e ∈ (route dist cache llm query history request_id).cache,
      e ∈ cache ∨ e.target_agent = (get_llm_decision llm).target_agent := by
  intro e he
  cases hx : lookup_cache dist cache query history with
  | some c =>
    simp [route, hx] at he
    exact Or.inl he
  | none =>
    by_cases hc : (get_llm_decision llm).confidence > 8 / 10
    · simp only [route, hx, hc, if_pos, update_cache] at he
      rw [List.mem_append] at he
      rcases he with he | he
      · exact Or.inl he
      · right
        simp only [List.mem_singleton] at he
        rw [he]
    · simp [route, hx, hc] at he
      exact Or.inl he

theorem route_cache_stores_classifier_target_witness :
    ({ id := "req3", document := "q", target_agent := "rogue_agent",
       reasoning := "made up", timestamp := "1.0" } : CacheEntry) ∈
        ([] : List CacheEntry) ∨
      ({ id := "req3", document := "q", target_agent := "rogue_agent",
         reasoning := "made up", timestamp := "1.0" } : CacheEntry).target_agent =
        (get_llm_decision (LLMOutcome.success "rogue_agent" (9 / 10)
          "made up")).target_agent :=
  route_cache_stores_classifier_target (fun _ _ => 1) []
    (LLMOutcome.success "rogue_agent" (9 / 10) "made up") "q" "" "req3"
    _ (by
      have hq : lookup_cache (fun _ _ => (1 : ℚ)) [] "q" "" = none := by rfl
      have hc : ((9 : ℚ) / 10 > 8 / 10) := by norm_num
      simp [route, hq, get_llm_decision, hc, update_cache])

theorem route_cache_member_counterexample :
    ∃ e ∈ (route (fun _ _ => 1) []
        (LLMOutcome.success "rogue_agent" (9 / 10) "made up")
        "q" "" "req4").cache,
      e.target_agent ∉ scan_agents true [] := by
  have hq : lookup_cache (fun _ _ => (1 : ℚ)) [] "q" "" = none := by rfl
  have hc : ((9 : ℚ) / 10 > 8 / 10) := by norm_num
  refine ⟨{ id := "req4", document := "q", target_agent := "rogue_agent",
            reasoning := "made up", timestamp := "1.0" }, ?_, ?_⟩
  · simp [route, hq, get_llm_decision, hc, update_cache]
  · simp [scan_agents]

/-- C6: every classifier transport, parse or client-initialisation failure
is wrapped by `_get_llm_decision` into a degraded decision with
`target_agent = "universal_agent"`, `confidence = 0` and a reasoning
describing the failure; on a cache miss `route` returns this degraded
decision normally (the raw error never propagates), and its zero
confidence means nothing is written to the cache. -/
theorem classifier_failure_degraded (msg : String) (dist : Dist)
    (cache : List CacheEntry) (query history request_id : String)
    (hmiss : lookup_cache dist cache query history = none) :
    get_llm_decision (LLMOutcome.callFailure msg) =
      { target_agent := "universal_agent", confidence := 0
        reasoning := "Error in routing: " ++ msg, is_cached := false }
    ∧ get_llm_decision (LLMOutcome.initFailure msg) =
      { target_agent := "universal_agent", confidence := 0
        reasoning := "OpenAI API Key missing or invalid", is_cached := false }
    ∧ route dist cache (LLMOutcome.callFailure msg) query history request_id =
      { decision := { target_agent := "universal_agent", confidence := 0
                      reasoning := "Error in routing: " ++ msg
                      is_cached := false }
        cache := cache
        llmInvoked := true } := by
  refine ⟨rfl, rfl, ?_⟩
  have hc : ¬ ((0 : ℚ) > 8 / 10) := by norm_num
  simp [route, hmiss, get_llm_decision, hc]

theorem classifier_failure_degraded_witness :
    get_llm_decision (LLMOutcome.callFailure "timeout") =
      { target_agent := "universal_agent", confidence := 0
        reasoning := "Error in routing: " ++ "timeout", is_cached := false }
    ∧ get_llm_decision (LLMOutcome.initFailure "timeout") =
      { target_agent := "universal_agent", confidence := 0
        reasoning := "OpenAI API Key missing or invalid", is_cached := false }
    ∧ route (fun _ _ => 1) [] (LLMOutcome.callFailure "timeout") "q" "" "req5" =
      { decision := { target_agent := "universal_agent", confidence := 0
                      reasoning := "Error in routing: " ++ "timeout"
                      is_cached := false }
        cache := []
        llmInvoked := true } :=
  classifier_failure_degraded "timeout" (fun _ _ => 1) [] "q" "" "req5" (by rfl)

/-- C9 (corrected): when the agents directory exists and the scan of its
entries yields no qualifying agent, `available_agents` is exactly the
single-element fallback list `["universal_agent"]`; when the directory
exists the result is never empty; but when the agents directory does not
exist, `_scan_agents` returns the empty list, not the fallback. -/
theorem scan_agents_fallback (entries : List DirEntry) :
    (((entries.filter
        (fun e => e.is_dir && !strStartsWith e.name "." && e.name != "common"
          && e.hasSystemPrompt)).map (fun e => e.name)) = [] →
      scan_agents true entries = ["universal_agent"])
    ∧ scan_agents true entries ≠ []
    ∧ scan_agents false entries = [] := by
  refine ⟨fun h => by simp [scan_agents, h], ?_, by simp [scan_agents]⟩
  simp only [scan_agents, Bool.not_true, Bool.false_eq_true, if_false]
  by_cases h : ((entries.filter
      (fun e => e.is_dir && !strStartsWith e.name "." && e.name != "common"
        && e.hasSystemPrompt)).map (fun e => e.name)) = []
  · simp [h]
  · simp only [h, if_neg, if_false]
    intro hcon
    have := List.mergeSort_perm ((entries.filter
      (fun e => e.is_dir && !strStartsWith e.name "." && e.name != "common"
        && e.hasSystemPrompt)).map (fun e => e.name)) (fun a b => a ≤ b)
    rw [hcon] at this
    exact h (this.nil_eq).symm

theorem scan_agents_fallback_witness :
    scan_agents true
      [{ name := "common", is_dir := true, hasSystemPrompt := true },
       { name := ".hidden", is_dir := true, hasSystemPrompt := true },
       { name := "notes", is_dir := false, hasSystemPrompt := false }] =
      ["universal_agent"] :=
  (scan_agents_fallback
    [{ name := "common", is_dir := true, hasSystemPrompt := true },
     { name := ".hidden", is_dir := true, hasSystemPrompt := true },
     { name := "notes", is_dir := false, hasSystemPrompt := false }]).1
    (by rfl)

theorem scan_agents_missing_dir_counterexample :
    scan_agents false [] = [] ∧
      scan_agents false [] ≠ ["universal_agent"] := by
  refine ⟨by simp [scan_agents], by simp [scan_agents]⟩

theorem threshFilter_eq_map_filter (θ : ℚ) (l : List QEntry) :
    threshFilter θ l =
      (l.filter (fun e => e.distance < θ)).map toRetrieved := by
  induction l with
  | nil => rfl
  | cons x xs ih =>
    simp only [threshFilter, List.filterMap_cons, List.filter_cons] at *
    by_cases h : x.distance < θ
    · simp [h, toRetrieved, ih]
    · simp [h, ih]

theorem threshFilter_eq_nil (θ : ℚ) (l : List QEntry)
    (hall : ∀ e ∈ l, ¬ e.distance < θ) : threshFilter θ l = [] := by
  apply List.filterMap_eq_nil_iff.mpr
  intro e he
  simp [hall e he]

/-- C7: without preferred ids, retrieval returns exactly the ranked query
results whose distance is strictly below the component-specific threshold
(0.45 for skills, 0.73 for implants), in rank order; and when the ranked
results are sorted by distance and the nearest one's distance is at or
above the threshold, the returned sequence is empty. -/
theorem retrieve_filters_by_threshold (count : Nat) (hc : count ≠ 0)
    (get : List String → GetOutcome) (qres : List QEntry) :
    (skills_retrieve count [] get qres =
      (qres.filter (fun e => e.distance < SKILLS_THRESHOLD)).map toRetrieved)
    ∧ (implants_retrieve count qres =
      (qres.filter (fun e => e.distance < IMPLANTS_THRESHOLD)).map toRetrieved)
    ∧ (qres.Pairwise (fun a b => a.distance ≤ b.distance) →
      ∀ e0, qres.head? = some e0 →
        (SKILLS_THRESHOLD ≤ e0.distance →
          skills_retrieve count [] get qres = [])
        ∧ (IMPLANTS_THRESHOLD ≤ e0.distance →
          implants_retrieve count qres = [])) := by
  have hall : ∀ θ : ℚ, qres.Pairwise (fun a b => a.distance ≤ b.distance) →
      ∀ e0, qres.head? = some e0 → θ ≤ e0.distance →
      ∀ e ∈ qres, ¬ e.distance < θ := by
    intro θ hs e0 h0 hθ e he
    cases qres with
    | nil => simp at he
    | cons x xs =>
      injection h0 with h0
      subst h0
      rw [List.pairwise_cons] at hs
      rcases List.mem_cons.mp he with rfl | he2
      · exact not_lt.mpr hθ
      · exact not_lt.mpr (le_trans hθ (hs.1 e he2))
  refine ⟨by simp [skills_retrieve, hc, threshFilter_eq_map_filter],
          by simp [implants_retrieve, hc, threshFilter_eq_map_filter],
          fun hs e0 h0 => ⟨fun hθ => ?_, fun hθ => ?_⟩⟩
  · simp [skills_retrieve, hc,
      threshFilter_eq_nil _ _ (hall SKILLS_THRESHOLD hs e0 h0 hθ)]
  · simp [implants_retrieve, hc,
      threshFilter_eq_nil _ _ (hall IMPLANTS_THRESHOLD hs e0 h0 hθ)]

theorem retrieve_filters_by_threshold_witness :
    skills_retrieve 2 [] (fun _ => GetOutcome.err "unused")
      [{ id := "s1.mdc", distance := 1 / 2, meta := none,
         document := "D" }] = [] :=
  ((retrieve_filters_by_threshold 2 (by decide) (fun _ => GetOutcome.err "unused")
      [{ id := "s1.mdc", distance := 1 / 2, meta := none,
         document := "D" }]).2.2 (by simp)
    { id := "s1.mdc", distance := 1 / 2, meta := none, document := "D" }
    rfl).1 (by norm_num [SKILLS_THRESHOLD])

/-- C8 (corrected): with preferred ids the retriever normalises each id to
the canonical `.mdc` form and fetches by exact id, returning the store's
entries in returned order with distance `0`; when the get operation
raises, the call falls through to threshold-filtered similarity search;
but when the get succeeds while finding none of the requested ids, the
call returns the empty sequence without falling back to similarity
search. -/
theorem preferred_ids_fetch (count : Nat) (hc : count ≠ 0) (ps : List String)
    (hp : ps ≠ []) (get : List String → GetOutcome) (qres : List QEntry) :
    (∀ entries, get (ps.map normalizeId) = GetOutcome.found entries →
      skills_retrieve count ps get qres =
        entries.map (fun e =>
          { filename := e.1, content := contentOf e.2.1 e.2.2,
            meta := e.2.1, distance := 0 }))
    ∧ (∀ msg, get (ps.map normalizeId) = GetOutcome.err msg →
      skills_retrieve count ps get qres = threshFilter SKILLS_THRESHOLD qres)
    ∧ (get (ps.map normalizeId) = GetOutcome.found [] →
      skills_retrieve count ps get qres = []) := by
  cases ps with
  | nil => exact absurd rfl hp
  | cons p ps2 =>
    refine ⟨fun entries h => ?_, fun msg h => ?_, fun h => ?_⟩ <;>
      (rw [List.map_cons] at h; simp [skills_retrieve, hc, h])

theorem preferred_ids_fetch_witness :
    skills_retrieve 1 ["foo"]
      (fun ids => if ids = ["foo.mdc"] then
          GetOutcome.found [("foo.mdc",
            some { filename := "foo.mdc", description := "d", path := "p",
                   body := "B" }, "doc")]
        else GetOutcome.err "unexpected") [] =
      [{ filename := "foo.mdc", content := "B",
         meta := some { filename := "foo.mdc", description := "d",
                        path := "p", body := "B" }, distance := 0 }] :=
  (preferred_ids_fetch 1 (by decide) ["foo"] (by decide) _ []).1
    [("foo.mdc",
      some { filename := "foo.mdc", description := "d", path := "p",
             body := "B" }, "doc")] (by rfl)

theorem preferred_absent_returns_empty_counterexample :
    skills_retrieve 1 ["foo"] (fun _ => GetOutcome.found [])
      [{ id := "bar.mdc", distance := 1 / 10,
         meta := some { filename := "bar.mdc", description := "d",
                        path := "p", body := "B" },
         document := "doc" }] = []
    ∧ threshFilter SKILLS_THRESHOLD
      [{ id := "bar.mdc", distance := 1 / 10,
         meta := some { filename := "bar.mdc", description := "d",
                        path := "p", body := "B" },
         document := "doc" }] ≠ [] := by
  constructor
  · rfl
  · simp only [threshFilter, List.filterMap_cons]
    have h : (10 : ℚ)⁻¹ < SKILLS_THRESHOLD := by norm_num [SKILLS_THRESHOLD]
    simp [h]
